import Mathlib

/-!
Shallow embedding of the drawing core of the ezgui crate
(src/ezgui/src/drawing.rs): the buffer uploader ("Prerender"), the
vertex encoder, the uniform block and the per-frame rendering context
("GfxCtx").  Rust f32/f64 values are modelled as rationals; usize and
u32 as naturals, with an explicit modulus where the source casts to u32.
-/

namespace AbstreetDrawing

/-- The render-mode discriminant NO_HATCHING = 0.0 (drawing.rs line 8). -/
def NO_HATCHING : ℚ := 0

/-- The render-mode discriminant HATCHING = 1.0 (drawing.rs line 9). -/
def HATCHING : ℚ := 1

/-- The render-mode discriminant SCREENSPACE = 2.0 (drawing.rs line 10). -/
def SCREENSPACE : ℚ := 2

/-- Modulus of the Rust u32 cast applied to each triangle index. -/
def U32_MOD : ℕ := 4294967296

/-- A map-space point (geom crate Pt2D, two f64 coordinates). -/
structure Pt2D where
  x : ℚ
  y : ℚ
deriving DecidableEq

/-- A screen-space point (ezgui ScreenPt, two f64 coordinates). -/
structure ScreenPt where
  x : ℚ
  y : ℚ
deriving DecidableEq

/-- An axis-aligned bounding box (geom crate Bounds). -/
structure Bounds where
  min_x : ℚ
  min_y : ℚ
  max_x : ℚ
  max_y : ℚ
deriving DecidableEq

/-- The fill variant: a solid RGBA color or a bound atlas texture id
(ezgui Color as consumed by the encoder in drawing.rs lines 413-428). -/
inductive Color where
  | RGBA (r g b a : ℚ)
  | Texture (id : ℚ)
deriving DecidableEq

/-- Modelled from the spec: geom::Polygon is an external collaborator;
the uploader consumes only its triangulated vertex list, its triangle
index list (polygon-local indices) and its bounding box, so a polygon is
embedded as exactly that data. -/
structure Polygon where
  points : List Pt2D
  indices : List ℕ
  bounds : Bounds
deriving DecidableEq

/-- The (pts, raw_indices) pair consumed at drawing.rs line 410. -/
def Polygon.raw_for_rendering (p : Polygon) : List Pt2D × List ℕ :=
  (p.points, p.indices)

/-- The bounding box consumed at drawing.rs line 417. -/
def Polygon.get_bounds (p : Polygon) : Bounds :=
  p.bounds

/-- The packed four-float style field of a GPU vertex (drawing.rs line 370). -/
structure Style where
  s0 : ℚ
  s1 : ℚ
  s2 : ℚ
  s3 : ℚ
deriving DecidableEq

/-- A GPU vertex record: position and packed style (drawing.rs lines 365-371). -/
structure Vertex where
  position : Pt2D
  style : Style
deriving DecidableEq

/-- One step of the per-vertex encoding loop of actually_upload
(drawing.rs lines 412-433).  The state carries maybe_bounds together
with a count of get_bounds computations, so that the laziness of the
bounding-box computation is itself observable. -/
def encodeStep (color : Color) (poly : Polygon)
    (st : Option Bounds × ℕ) (pt : Pt2D) : (Option Bounds × ℕ) × Vertex :=
  match color with
  | Color.RGBA r g b a =>
      (st, ⟨⟨pt.x, pt.y⟩, ⟨r, g, b, a⟩⟩)
  | Color.Texture id =>
      let mb := if st.1.isNone then some poly.get_bounds else st.1
      let calls := if st.1.isNone then st.2 + 1 else st.2
      let b := mb.getD poly.get_bounds
      ((mb, calls),
       ⟨⟨pt.x, pt.y⟩,
        ⟨id, (pt.x - b.min_x) / (b.max_x - b.min_x),
         (pt.y - b.min_y) / (b.max_y - b.min_y), 0⟩⟩)

/-- The accumulator update of the per-vertex loop: push the encoded
vertex and carry the (maybe_bounds, call count) state. -/
def encodeFoldStep (color : Color) (poly : Polygon)
    (acc : List Vertex × Option Bounds × ℕ) (pt : Pt2D) :
    List Vertex × Option Bounds × ℕ :=
  let s := encodeStep color poly (acc.2.1, acc.2.2) pt
  (acc.1 ++ [s.2], s.1.1, s.1.2)

/-- The encoding of one (fill, polygon) pair: the vertex list pushed for
that polygon, paired with how many times the bounding box was computed
(drawing.rs lines 409-434). -/
def encodePoly (color : Color) (poly : Polygon) : List Vertex × ℕ :=
  let r := (poly.raw_for_rendering).1.foldl (encodeFoldStep color poly) ([], none, 0)
  (r.1, r.2.2)

/-- The vertex produced for one point, written directly (the lazy
maybe_bounds state never changes which bounds are used). -/
def vertexOf (color : Color) (poly : Polygon) (pt : Pt2D) : Vertex :=
  match color with
  | Color.RGBA r g b a => ⟨⟨pt.x, pt.y⟩, ⟨r, g, b, a⟩⟩
  | Color.Texture id =>
      ⟨⟨pt.x, pt.y⟩,
       ⟨id, (pt.x - poly.bounds.min_x) / (poly.bounds.max_x - poly.bounds.min_x),
        (pt.y - poly.bounds.min_y) / (poly.bounds.max_y - poly.bounds.min_y), 0⟩⟩

/-- The shared, process-wide counters of the uploader
(drawing.rs lines 376-382). -/
structure PrerenderState where
  num_uploads : ℕ
  total_bytes_uploaded : ℕ
deriving DecidableEq

/-- A GPU-resident buffer pair (drawing.rs lines 359-362). -/
structure Drawable where
  vertex_buffer : List Vertex
  index_buffer : List ℕ
deriving DecidableEq

/-- Byte size of one Vertex: position [f32;2] plus style [f32;4]. -/
def VERTEX_BYTES : ℕ := 24

/-- Byte size of one u32 index. -/
def INDEX_BYTES : ℕ := 4

/-- The body of the batch loop of actually_upload (drawing.rs lines
408-438): append the encoded vertices of one pair, and append its
triangle indices offset by the running vertex count, cast to u32. -/
def uploadStep (acc : List Vertex × List ℕ) (cp : Color × Polygon) :
    List Vertex × List ℕ :=
  let idx_offset := acc.1.length
  let pr := cp.2.raw_for_rendering
  (acc.1 ++ (encodePoly cp.1 cp.2).1,
   acc.2 ++ pr.2.map (fun idx => (idx_offset + idx) % U32_MOD))

/-- Prerender::actually_upload (drawing.rs lines 402-473): bump the
upload counter, build the flat vertex and index arrays, and when the
upload is permanent also bump the resident-byte counter by both buffer
byte sizes. -/
def Prerender.actually_upload (st : PrerenderState) (permanent : Bool)
    (list : List (Color × Polygon)) : PrerenderState × Drawable :=
  let st1 : PrerenderState := { st with num_uploads := st.num_uploads + 1 }
  let vi := list.foldl uploadStep ([], [])
  let st2 : PrerenderState :=
    if permanent then
      { st1 with total_bytes_uploaded := st1.total_bytes_uploaded +
          (VERTEX_BYTES * vi.1.length + INDEX_BYTES * vi.2.length) }
    else st1
  (st2, ⟨vi.1, vi.2⟩)

/-- A geometry batch: an ordered list of (fill, polygon) pairs
(drawing.rs lines 328-330). -/
structure GeomBatch where
  list : List (Color × Polygon)
deriving DecidableEq

/-- GeomBatch::new (drawing.rs line 333). -/
def GeomBatch.new : GeomBatch := ⟨[]⟩

/-- GeomBatch::push (drawing.rs line 337). -/
def GeomBatch.push (b : GeomBatch) (color : Color) (p : Polygon) : GeomBatch :=
  ⟨b.list ++ [(color, p)]⟩

/-- Prerender::upload_borrowed (drawing.rs line 385): a permanent upload. -/
def Prerender.upload_borrowed (st : PrerenderState)
    (list : List (Color × Polygon)) : PrerenderState × Drawable :=
  Prerender.actually_upload st true list

/-- Prerender::upload (drawing.rs line 389): a permanent upload of a batch. -/
def Prerender.upload (st : PrerenderState) (batch : GeomBatch) :
    PrerenderState × Drawable :=
  Prerender.actually_upload st true batch.list

/-- Prerender::upload_temporary (drawing.rs line 398): a transient upload. -/
def Prerender.upload_temporary (st : PrerenderState)
    (list : List (Color × Polygon)) : PrerenderState × Drawable :=
  Prerender.actually_upload st false list

/-- The camera and window state read from the Canvas (ezgui Canvas as
consumed by drawing.rs). -/
structure Canvas where
  cam_x : ℚ
  cam_y : ℚ
  cam_zoom : ℚ
  window_width : ℚ
  window_height : ℚ
  cursor_x : ℚ
  cursor_y : ℚ
deriving DecidableEq

/-- A three-float uniform vector. -/
structure Vec3 where
  a : ℚ
  b : ℚ
  c : ℚ
deriving DecidableEq

/-- The Uniform Block: the (cam_x, cam_y, cam_zoom) transform triple and
the (window_width, window_height, mode) window triple
(drawing.rs lines 12-23). -/
structure Uniforms where
  transform : Vec3
  window : Vec3
deriving DecidableEq

/-- Uniforms::new (drawing.rs lines 26-41): derive the block from the
Canvas, with mode NO_HATCHING. -/
def Uniforms.new (canvas : Canvas) : Uniforms :=
  ⟨⟨canvas.cam_x, canvas.cam_y, canvas.cam_zoom⟩,
   ⟨canvas.window_width, canvas.window_height, NO_HATCHING⟩⟩

/-- A screen-space rectangle, as registered with the covered-area
tracker of the Canvas. -/
structure ScreenRectangle where
  x1 : ℚ
  y1 : ℚ
  x2 : ℚ
  y2 : ℚ
deriving DecidableEq

/-- The per-frame rendering context (drawing.rs lines 53-69).  The
framebuffer target is modelled by the lists of draw calls and clears
issued to it, and the interior-mutable covered-area tracker of the
Canvas by the covered_areas list. -/
structure GfxCtx where
  uniforms : Uniforms
  canvas : Canvas
  prerender : PrerenderState
  num_draw_calls : ℕ
  hatching : ℚ
  screencap_mode : Bool
  naming_hint : Option String
  target_draws : List Drawable
  target_clears : List (ℚ × ℚ × ℚ × ℚ)
  covered_areas : List ScreenRectangle
deriving DecidableEq

/-- GfxCtx::new (drawing.rs lines 72-105). -/
def GfxCtx.new (canvas : Canvas) (prerender : PrerenderState)
    (screencap_mode : Bool) : GfxCtx :=
  { uniforms := Uniforms.new canvas
    canvas := canvas
    prerender := prerender
    num_draw_calls := 0
    hatching := NO_HATCHING
    screencap_mode := screencap_mode
    naming_hint := none
    target_draws := []
    target_clears := []
    covered_areas := [] }

/-- GfxCtx::fork (drawing.rs lines 110-121). -/
def GfxCtx.fork (g : GfxCtx) (top_left_map : Pt2D) (top_left_screen : ScreenPt)
    (zoom : ℚ) : GfxCtx :=
  let cam_x := top_left_map.x * zoom - top_left_screen.x
  let cam_y := top_left_map.y * zoom - top_left_screen.y
  { g with uniforms :=
      ⟨⟨cam_x, cam_y, zoom⟩,
       ⟨g.canvas.window_width, g.canvas.window_height, SCREENSPACE⟩⟩ }

/-- GfxCtx::fork_screenspace (drawing.rs lines 123-130). -/
def GfxCtx.fork_screenspace (g : GfxCtx) : GfxCtx :=
  { g with uniforms :=
      ⟨⟨0, 0, 1⟩,
       ⟨g.canvas.window_width, g.canvas.window_height, SCREENSPACE⟩⟩ }

/-- GfxCtx::unfork (drawing.rs lines 132-135): rebuild the block from
the Canvas, then overwrite the mode with the hatching flag. -/
def GfxCtx.unfork (g : GfxCtx) : GfxCtx :=
  let u := Uniforms.new g.canvas
  { g with uniforms := { u with window := ⟨u.window.a, u.window.b, g.hatching⟩ } }

/-- GfxCtx::clear (drawing.rs lines 137-146): only a solid RGBA color is
accepted; any other fill reaches the unreachable arm, modelled as none. -/
def GfxCtx.clear (g : GfxCtx) (color : Color) : Option GfxCtx :=
  match color with
  | Color.RGBA r gr b a =>
      some { g with target_clears := g.target_clears ++ [(r, gr, b, a)] }
  | Color.Texture _ => none

/-- GfxCtx::redraw (drawing.rs lines 183-196): issue one draw call
against the target and bump the per-frame counter. -/
def GfxCtx.redraw (g : GfxCtx) (obj : Drawable) : GfxCtx :=
  { g with target_draws := g.target_draws ++ [obj]
           num_draw_calls := g.num_draw_calls + 1 }

/-- GfxCtx::draw_polygon (drawing.rs lines 171-174): transient upload of
one pair, then redraw. -/
def GfxCtx.draw_polygon (g : GfxCtx) (color : Color) (poly : Polygon) : GfxCtx :=
  let r := Prerender.upload_temporary g.prerender [(color, poly)]
  GfxCtx.redraw { g with prerender := r.1 } r.2

/-- GfxCtx::draw_polygons (drawing.rs lines 176-181): one transient
upload of all pairs sharing a color, then one redraw. -/
def GfxCtx.draw_polygons (g : GfxCtx) (color : Color) (polygons : List Polygon) :
    GfxCtx :=
  let r := Prerender.upload_temporary g.prerender (polygons.map (fun p => (color, p)))
  GfxCtx.redraw { g with prerender := r.1 } r.2

/-- GfxCtx::enable_hatching (drawing.rs lines 198-202): the assertion
that hatching is currently NO_HATCHING is modelled as none on failure;
on success the flag is set and unfork re-derives the block. -/
def GfxCtx.enable_hatching (g : GfxCtx) : Option GfxCtx :=
  if g.hatching = NO_HATCHING then
    some (GfxCtx.unfork { g with hatching := HATCHING })
  else none

/-- GfxCtx::disable_hatching (drawing.rs lines 204-208). -/
def GfxCtx.disable_hatching (g : GfxCtx) : Option GfxCtx :=
  if g.hatching = HATCHING then
    some (GfxCtx.unfork { g with hatching := NO_HATCHING })
  else none

/-- Modelled from the spec: the ezgui Text type is an external
collaborator; the context only consults its emptiness and hands it to
the text-measurement and bubble-drawing collaborators. -/
structure Text where
  is_empty : Bool
deriving DecidableEq

/-- The horizontal alignment variants consumed at drawing.rs lines 222-230. -/
inductive HorizontalAlignment where
  | Left
  | Center
  | Right
  | FillScreen
deriving DecidableEq

/-- The vertical alignment variants consumed at drawing.rs lines 231-235. -/
inductive VerticalAlignment where
  | Top
  | Center
  | Bottom
deriving DecidableEq

/-- GfxCtx::draw_blocking_text (drawing.rs lines 213-242).  The external
text collaborators are passed in: text_dims measures the text, and
draw_text_bubble draws the bubble through the context and returns the
rectangle it occupied, which is then registered with the covered-area
tracker.  Empty text returns immediately. -/
def GfxCtx.draw_blocking_text
    (text_dims : Text → ℚ × ℚ)
    (draw_text_bubble : GfxCtx → ScreenPt → Text → ℚ × ℚ → GfxCtx × ScreenRectangle)
    (g : GfxCtx) (txt : Text)
    (horiz : HorizontalAlignment) (vert : VerticalAlignment) : GfxCtx :=
  if txt.is_empty then g
  else
    let wh := text_dims txt
    let height := wh.2
    let xw : ℚ × ℚ :=
      match horiz with
      | HorizontalAlignment.Left => (0, wh.1)
      | HorizontalAlignment.Center => ((g.canvas.window_width - wh.1) / 2, wh.1)
      | HorizontalAlignment.Right => (g.canvas.window_width - wh.1, wh.1)
      | HorizontalAlignment.FillScreen => (0, g.canvas.window_width)
    let y1 : ℚ :=
      match vert with
      | VerticalAlignment.Top => 0
      | VerticalAlignment.Center => (g.canvas.window_height - height) / 2
      | VerticalAlignment.Bottom => g.canvas.window_height - height
    let r := draw_text_bubble g ⟨xw.1, y1⟩ txt (xw.2, height)
    { r.1 with covered_areas := r.1.covered_areas ++ [r.2] }

/-- Modelled from the spec: the shader applies the camera transform in
which a map-space point lands on screen at point times zoom minus the
camera offset (the comment at drawing.rs line 111 fixes this reading:
map_to_screen of top_left_map should be top_left_screen). -/
def map_to_screen (transform : Vec3) (pt : Pt2D) : ScreenPt :=
  ⟨pt.x * transform.c - transform.a, pt.y * transform.c - transform.b⟩

/-- The style decoder fixed by the comment at drawing.rs lines 367-368:
a zero fourth component marks a texture style, a non-zero one an RGBA
style. -/
def styleIsTexture (v : Vertex) : Bool :=
  v.style.s3 = 0

/-- The concatenation of the per-pair encoded vertex lists. -/
def uploadVerts : List (Color × Polygon) → List Vertex
  | [] => []
  | cp :: rest => (encodePoly cp.1 cp.2).1 ++ uploadVerts rest

/-- The concatenation of the per-pair index lists, each offset by the
running vertex count and reduced modulo 2 to the 32, exactly as pushed
by the loop of actually_upload. -/
def uploadIdx (base : ℕ) : List (Color × Polygon) → List ℕ
  | [] => []
  | cp :: rest =>
      cp.2.indices.map (fun idx => (base + idx) % U32_MOD) ++
        uploadIdx (base + cp.2.points.length) rest

/-- The index array as the spec describes it: the running vertex offset
of each polygon plus the polygon-local index, with no truncation. -/
def indexSpec (base : ℕ) : List (Color × Polygon) → List ℕ
  | [] => []
  | cp :: rest =>
      cp.2.indices.map (fun idx => base + idx) ++
        indexSpec (base + cp.2.points.length) rest

/-- The total triangulated vertex count of a list of pairs. -/
def totalVerts (list : List (Color × Polygon)) : ℕ :=
  (list.map (fun cp => cp.2.points.length)).sum

/-- Triangulation validity: every polygon-local index addresses one of
the points of its own polygon. -/
def validTriangulation (list : List (Color × Polygon)) : Prop :=
  ∀ cp ∈ list, ∀ i ∈ cp.2.indices, i < cp.2.points.length

instance (list : List (Color × Polygon)) : Decidable (validTriangulation list) :=
  List.decidableBAll _ list

/-- Run a list of hatching calls (true = enable_hatching,
false = disable_hatching), failing as soon as one assertion fires. -/
def runHatchCalls (g : GfxCtx) : List Bool → Option GfxCtx
  | [] => some g
  | b :: rest =>
      match (if b then g.enable_hatching else g.disable_hatching) with
      | none => none
      | some g2 => runHatchCalls g2 rest

/-- The strictly alternating call sequence of length n that starts with
enable_hatching. -/
def altHatchList (n : ℕ) : List Bool :=
  (List.range n).map (fun i => decide (i % 2 = 0))

/-- A sample canvas for concrete witnesses. -/
def sampleCanvas : Canvas :=
  ⟨5, 7, 2, 800, 600, 10, 20⟩

/-- A sample triangle polygon with a solid triangulation. -/
def samplePoly : Polygon :=
  ⟨[⟨0, 0⟩, ⟨4, 0⟩, ⟨0, 4⟩], [0, 1, 2], ⟨0, 0, 4, 4⟩⟩

/-- A sample quadrilateral polygon: the unit square with two triangles. -/
def squarePoly : Polygon :=
  ⟨[⟨0, 0⟩, ⟨1, 0⟩, ⟨1, 1⟩, ⟨0, 1⟩], [0, 1, 2, 0, 2, 3], ⟨0, 0, 1, 1⟩⟩

/-- A sample fresh uploader state. -/
def samplePrerender : PrerenderState := ⟨0, 0⟩

/-- A sample fresh frame context over the sample canvas. -/
def sampleCtx : GfxCtx :=
  GfxCtx.new sampleCanvas samplePrerender false

/-- A sample frame context with hatching enabled. -/
def hatchedCtx : GfxCtx :=
  { sampleCtx with hatching := HATCHING }

/-- A sample empty drawable. -/
def sampleDrawable : Drawable := ⟨[], []⟩

theorem encodeFold_rgba (r g b a : ℚ) (poly : Polygon) (pts : List Pt2D) :
    ∀ (vs : List Vertex) (mb : Option Bounds) (n : ℕ),
    pts.foldl (encodeFoldStep (Color.RGBA r g b a) poly) (vs, mb, n)
      = (vs ++ pts.map (vertexOf (Color.RGBA r g b a) poly), mb, n) := by
  induction pts with
  | nil => intro vs mb n; simp
  | cons p rest ih =>
      intro vs mb n
      simp only [List.foldl_cons, List.map_cons]
      rw [show encodeFoldStep (Color.RGBA r g b a) poly (vs, mb, n) p
            = (vs ++ [vertexOf (Color.RGBA r g b a) poly p], mb, n) from rfl]
      rw [ih]
      simp

theorem encodeFold_tex_some (id : ℚ) (poly : Polygon) (pts : List Pt2D) :
    ∀ (vs : List Vertex) (n : ℕ),
    pts.foldl (encodeFoldStep (Color.Texture id) poly) (vs, some poly.get_bounds, n)
      = (vs ++ pts.map (vertexOf (Color.Texture id) poly), some poly.get_bounds, n) := by
  induction pts with
  | nil => intro vs n; simp
  | cons p rest ih =>
      intro vs n
      simp only [List.foldl_cons, List.map_cons]
      rw [show encodeFoldStep (Color.Texture id) poly (vs, some poly.get_bounds, n) p
            = (vs ++ [vertexOf (Color.Texture id) poly p], some poly.get_bounds, n) from rfl]
      rw [ih]
      simp

theorem encodeFold_tex_none (id : ℚ) (poly : Polygon) (p : Pt2D) (rest : List Pt2D)
    (vs : List Vertex) (n : ℕ) :
    (p :: rest).foldl (encodeFoldStep (Color.Texture id) poly) (vs, none, n)
      = (vs ++ (p :: rest).map (vertexOf (Color.Texture id) poly),
         some poly.get_bounds, n + 1) := by
  simp only [List.foldl_cons, List.map_cons]
  rw [show encodeFoldStep (Color.Texture id) poly (vs, none, n) p
        = (vs ++ [vertexOf (Color.Texture id) poly p], some poly.get_bounds, n + 1) from rfl]
  rw [encodeFold_tex_some]
  simp

theorem encodeFold_tex_zero (id : ℚ) (poly : Polygon) (pts : List Pt2D) :
    pts.foldl (encodeFoldStep (Color.Texture id) poly) ([], none, 0)
      = (pts.map (vertexOf (Color.Texture id) poly),
         if pts.isEmpty then ((none : Option Bounds), 0)
         else (some poly.get_bounds, 1)) := by
  cases pts with
  | nil => simp
  | cons p rest =>
      rw [encodeFold_tex_none]
      simp

theorem encodePoly_fst (color : Color) (poly : Polygon) :
    (encodePoly color poly).1 = poly.points.map (vertexOf color poly) := by
  cases color with
  | RGBA r g b a =>
      simp [encodePoly, Polygon.raw_for_rendering, encodeFold_rgba]
  | Texture id =>
      simp only [encodePoly, Polygon.raw_for_rendering, encodeFold_tex_zero]

theorem encodePoly_length (color : Color) (poly : Polygon) :
    (encodePoly color poly).1.length = poly.points.length := by
  rw [encodePoly_fst]
  simp

theorem encodePoly_boundsCalls_le (color : Color) (poly : Polygon) :
    (encodePoly color poly).2 ≤ 1 := by
  cases color with
  | RGBA r g b a =>
      simp [encodePoly, Polygon.raw_for_rendering, encodeFold_rgba]
  | Texture id =>
      simp only [encodePoly, Polygon.raw_for_rendering, encodeFold_tex_zero]
      cases h : poly.points.isEmpty <;> simp [h]

theorem uploadFold (list : List (Color × Polygon)) :
    ∀ (vs : List Vertex) (inds : List ℕ),
    list.foldl uploadStep (vs, inds)
      = (vs ++ uploadVerts list, inds ++ uploadIdx vs.length list) := by
  induction list with
  | nil => intro vs inds; simp [uploadVerts, uploadIdx]
  | cons cp rest ih =>
      intro vs inds
      simp only [List.foldl_cons]
      rw [show uploadStep (vs, inds) cp
            = (vs ++ (encodePoly cp.1 cp.2).1,
               inds ++ cp.2.indices.map (fun idx => (vs.length + idx) % U32_MOD))
          from rfl]
      rw [ih]
      simp [uploadVerts, uploadIdx, List.append_assoc, encodePoly_length]

theorem uploadVerts_length (list : List (Color × Polygon)) :
    (uploadVerts list).length = totalVerts list := by
  induction list with
  | nil => simp [uploadVerts, totalVerts]
  | cons cp rest ih =>
      simp only [uploadVerts, totalVerts, List.map_cons, List.sum_cons,
        List.length_append, encodePoly_length]
      simp only [totalVerts] at ih
      rw [ih]

theorem totalVerts_cons (cp : Color × Polygon) (rest : List (Color × Polygon)) :
    totalVerts (cp :: rest) = cp.2.points.length + totalVerts rest := by
  simp [totalVerts]

theorem indexSpec_lt (list : List (Color × Polygon)) :
    ∀ (base : ℕ), (∀ cp ∈ list, ∀ i ∈ cp.2.indices, i < cp.2.points.length) →
    ∀ k ∈ indexSpec base list, k < base + totalVerts list := by
  induction list with
  | nil => intro base _ k hk; simp [indexSpec] at hk
  | cons cp rest ih =>
      intro base hvalid k hk
      have ht := totalVerts_cons cp rest
      simp only [indexSpec, List.mem_append, List.mem_map] at hk
      rcases hk with ⟨i, hi, rfl⟩ | hk
      · have hlt : i < cp.2.points.length :=
          hvalid cp (List.mem_cons_self _ _) i hi
        omega
      · have := ih (base + cp.2.points.length)
          (fun c hc => hvalid c (List.mem_cons_of_mem _ hc)) k hk
        omega

theorem uploadIdx_eq_indexSpec (list : List (Color × Polygon)) :
    ∀ (base : ℕ), (∀ cp ∈ list, ∀ i ∈ cp.2.indices, i < cp.2.points.length) →
    base + totalVerts list ≤ U32_MOD →
    uploadIdx base list = indexSpec base list := by
  induction list with
  | nil => intro base _ _; rfl
  | cons cp rest ih =>
      intro base hvalid hle
      have ht := totalVerts_cons cp rest
      simp only [uploadIdx, indexSpec]
      congr 1
      · apply List.map_congr_left
        intro i hi
        have h1 : i < cp.2.points.length :=
          hvalid cp (List.mem_cons_self _ _) i hi
        exact Nat.mod_eq_of_lt (by omega)
      · exact ih (base + cp.2.points.length)
          (fun c hc => hvalid c (List.mem_cons_of_mem _ hc)) (by omega)

theorem actually_upload_buffers (st : PrerenderState) (permanent : Bool)
    (list : List (Color × Polygon)) :
    (Prerender.actually_upload st permanent list).2.vertex_buffer = uploadVerts list ∧
    (Prerender.actually_upload st permanent list).2.index_buffer = uploadIdx 0 list := by
  have h := uploadFold list [] []
  constructor
  · simp [Prerender.actually_upload, h]
  · simp [Prerender.actually_upload, h]

/-- Claim C1: for every list of (fill, polygon) pairs, the upload
produces a vertex array whose length is the sum of the per-polygon
triangulated vertex counts, and an index array in which every entry is
the running vertex offset of its polygon plus a polygon-local index,
hence strictly below the total vertex count.  This needs the
triangulation to be valid (each local index below its own vertex count)
and the total vertex count to fit in u32, since each index is cast to
u32 when pushed. -/
theorem upload_vertex_index_layout (st : PrerenderState) (permanent : Bool)
    (list : List (Color × Polygon))
    (hvalid : validTriangulation list)
    (hsize : totalVerts list ≤ U32_MOD) :
    (Prerender.actually_upload st permanent list).2.vertex_buffer.length
        = totalVerts list ∧
    (Prerender.actually_upload st permanent list).2.index_buffer
        = indexSpec 0 list ∧
    ∀ k ∈ (Prerender.actually_upload st permanent list).2.index_buffer,
      k < (Prerender.actually_upload st permanent list).2.vertex_buffer.length := by
  obtain ⟨hv, hi⟩ := actually_upload_buffers st permanent list
  have hspec : uploadIdx 0 list = indexSpec 0 list :=
    uploadIdx_eq_indexSpec list 0 hvalid (by simpa using hsize)
  refine ⟨by rw [hv, uploadVerts_length], by rw [hi, hspec], ?_⟩
  intro k hk
  rw [hi, hspec] at hk
  have := indexSpec_lt list 0 hvalid k hk
  rw [hv, uploadVerts_length]
  simpa using this

/-- Concrete instantiation of the C1 theorem on a two-polygon batch. -/
theorem upload_vertex_index_layout_witness :
    validTriangulation [(Color.RGBA 1 0 0 1, samplePoly), (Color.Texture 3, squarePoly)] ∧
    totalVerts [(Color.RGBA 1 0 0 1, samplePoly), (Color.Texture 3, squarePoly)] ≤ U32_MOD ∧
    ((Prerender.actually_upload samplePrerender true
        [(Color.RGBA 1 0 0 1, samplePoly), (Color.Texture 3, squarePoly)]).2.vertex_buffer.length
      = totalVerts [(Color.RGBA 1 0 0 1, samplePoly), (Color.Texture 3, squarePoly)] ∧
    (Prerender.actually_upload samplePrerender true
        [(Color.RGBA 1 0 0 1, samplePoly), (Color.Texture 3, squarePoly)]).2.index_buffer
      = indexSpec 0 [(Color.RGBA 1 0 0 1, samplePoly), (Color.Texture 3, squarePoly)] ∧
    ∀ k ∈ (Prerender.actually_upload samplePrerender true
        [(Color.RGBA 1 0 0 1, samplePoly), (Color.Texture 3, squarePoly)]).2.index_buffer,
      k < (Prerender.actually_upload samplePrerender true
        [(Color.RGBA 1 0 0 1, samplePoly), (Color.Texture 3, squarePoly)]).2.vertex_buffer.length) :=
  ⟨by decide, by decide,
   upload_vertex_index_layout samplePrerender true
     [(Color.RGBA 1 0 0 1, samplePoly), (Color.Texture 3, squarePoly)]
     (by decide) (by decide)⟩

/-- Claim C2, counterexample to the claim as stated: a solid RGBA fill
with zero alpha (such as the invisible color) produces vertices whose
fourth style component is exactly zero, so the zero discriminant does
not occur only for texture fills and decode-by-discriminant classifies
this solid fill as a texture fill. -/
theorem solid_fill_discriminant_counterexample :
    (encodePoly (Color.RGBA 1 1 1 0) samplePoly).1.head?
      = some ⟨⟨0, 0⟩, ⟨1, 1, 1, 0⟩⟩ ∧
    styleIsTexture ⟨⟨0, 0⟩, ⟨1, 1, 1, 0⟩⟩ = true := by
  constructor
  · decide
  · decide

/-- Claim C2 (amended): every vertex of a polygon encoded with a solid
RGBA fill receives the identical style value [r, g, b, a]; the fourth
component equals the alpha of the fill, so it is non-zero whenever that
alpha is non-zero; every texture-fill vertex has fourth component
exactly zero; hence decode-by-discriminant recovers the fill kind for
texture fills always, and for solid fills whenever the alpha is
non-zero. -/
theorem solid_fill_style_encoding (r g b a : ℚ) (id : ℚ) (poly : Polygon) :
    (∀ v ∈ (encodePoly (Color.RGBA r g b a) poly).1,
       v.style = ⟨r, g, b, a⟩) ∧
    (a ≠ 0 → ∀ v ∈ (encodePoly (Color.RGBA r g b a) poly).1,
       styleIsTexture v = false) ∧
    (∀ v ∈ (encodePoly (Color.Texture id) poly).1,
       styleIsTexture v = true) := by
  refine ⟨?_, ?_, ?_⟩
  · intro v hv
    rw [encodePoly_fst] at hv
    obtain ⟨pt, _, rfl⟩ := List.mem_map.1 hv
    rfl
  · intro ha v hv
    rw [encodePoly_fst] at hv
    obtain ⟨pt, _, rfl⟩ := List.mem_map.1 hv
    simp [styleIsTexture, vertexOf, ha]
  · intro v hv
    rw [encodePoly_fst] at hv
    obtain ⟨pt, _, rfl⟩ := List.mem_map.1 hv
    simp [styleIsTexture, vertexOf]

/-- Concrete instantiation of the amended C2 theorem on the sample
triangle with an opaque red fill. -/
theorem solid_fill_style_encoding_witness :
    ((1 : ℚ) ≠ 0) ∧
    (⟨⟨0, 0⟩, ⟨1, 0, 0, 1⟩⟩ : Vertex) ∈ (encodePoly (Color.RGBA 1 0 0 1) samplePoly).1 ∧
    styleIsTexture ⟨⟨0, 0⟩, ⟨1, 0, 0, 1⟩⟩ = false :=
  ⟨by decide, by decide,
   (solid_fill_style_encoding 1 0 0 1 3 samplePoly).2.1 (by decide)
     ⟨⟨0, 0⟩, ⟨1, 0, 0, 1⟩⟩ (by decide)⟩

/-- Claim C3, counterexample to the claim as stated: unfork always
rebuilds the Uniform Block from the Canvas, so when the block just
before the fork is not the Canvas-derived one (here: the identity
transform installed by fork_screenspace over a canvas whose camera is
at (5, 7) with zoom 2), fork followed by unfork does not restore it. -/
theorem fork_unfork_counterexample :
    ((sampleCtx.fork_screenspace.fork ⟨0, 0⟩ ⟨0, 0⟩ 1).unfork).uniforms ≠
      sampleCtx.fork_screenspace.uniforms := by
  decide

/-- Claim C3 (amended): when the Uniform Block holds the unforked
Canvas-derived state (transform from the camera, window triple carrying
the current hatching flag), fork followed immediately by unfork leaves
it numerically identical to its pre-fork state. -/
theorem fork_unfork_restores (g : GfxCtx) (p : Pt2D) (s : ScreenPt) (z : ℚ)
    (h : g.uniforms =
      ⟨⟨g.canvas.cam_x, g.canvas.cam_y, g.canvas.cam_zoom⟩,
       ⟨g.canvas.window_width, g.canvas.window_height, g.hatching⟩⟩) :
    ((g.fork p s z).unfork).uniforms = g.uniforms := by
  simp [GfxCtx.fork, GfxCtx.unfork, Uniforms.new, h]

/-- Concrete instantiation of the amended C3 theorem on a fresh context. -/
theorem fork_unfork_restores_witness :
    (sampleCtx.uniforms =
      ⟨⟨sampleCtx.canvas.cam_x, sampleCtx.canvas.cam_y, sampleCtx.canvas.cam_zoom⟩,
       ⟨sampleCtx.canvas.window_width, sampleCtx.canvas.window_height,
        sampleCtx.hatching⟩⟩) ∧
    ((sampleCtx.fork ⟨1, 2⟩ ⟨3, 4⟩ 5).unfork).uniforms = sampleCtx.uniforms :=
  ⟨by decide, fork_unfork_restores sampleCtx ⟨1, 2⟩ ⟨3, 4⟩ 5 (by decide)⟩

/-- Claim C4, counterexample to the claim as stated: a transient upload
does change the process-wide upload counter, because actually_upload
bumps num_uploads unconditionally before checking the permanent flag. -/
theorem transient_upload_counter_counterexample :
    (Prerender.upload_temporary samplePrerender []).1.num_uploads = 1 ∧
    samplePrerender.num_uploads = 0 := by
  constructor
  · decide
  · decide

/-- Claim C4 (amended): a persistent upload increments the total upload
count by one and the total resident bytes by the sum of the
vertex-buffer and index-buffer byte sizes; a transient upload also
increments the total upload count by one, and leaves only the resident
byte counter unchanged. -/
theorem upload_counters (st : PrerenderState) (list : List (Color × Polygon)) :
    ((Prerender.upload_borrowed st list).1.num_uploads = st.num_uploads + 1 ∧
     (Prerender.upload_borrowed st list).1.total_bytes_uploaded
       = st.total_bytes_uploaded
         + (VERTEX_BYTES * (Prerender.upload_borrowed st list).2.vertex_buffer.length
            + INDEX_BYTES * (Prerender.upload_borrowed st list).2.index_buffer.length)) ∧
    ((Prerender.upload_temporary st list).1.num_uploads = st.num_uploads + 1 ∧
     (Prerender.upload_temporary st list).1.total_bytes_uploaded
       = st.total_bytes_uploaded) := by
  refine ⟨⟨rfl, rfl⟩, rfl, rfl⟩

/-- Claim C5: fork installs the camera transform
(top_left_map.x * zoom - top_left_screen.x,
 top_left_map.y * zoom - top_left_screen.y, zoom), under which the given
map-space point lands exactly on the given screen-space point, and sets
the mode discriminant (third component of the window triple) to
SCREENSPACE = 2.0. -/
theorem fork_installs_camera (g : GfxCtx) (tlm : Pt2D) (tls : ScreenPt) (z : ℚ) :
    (g.fork tlm tls z).uniforms.transform
      = ⟨tlm.x * z - tls.x, tlm.y * z - tls.y, z⟩ ∧
    (g.fork tlm tls z).uniforms.window.c = SCREENSPACE ∧
    map_to_screen (g.fork tlm tls z).uniforms.transform tlm = ⟨tls.x, tls.y⟩ := by
  refine ⟨rfl, rfl, ?_⟩
  simp only [GfxCtx.fork, map_to_screen, ScreenPt.mk.injEq]
  constructor <;> ring

theorem enable_hatching_of_disabled (g : GfxCtx) (h : g.hatching = NO_HATCHING) :
    g.enable_hatching = some (GfxCtx.unfork { g with hatching := HATCHING }) := by
  simp [GfxCtx.enable_hatching, h]

theorem disable_hatching_of_enabled (g : GfxCtx) (h : g.hatching = HATCHING) :
    g.disable_hatching = some (GfxCtx.unfork { g with hatching := NO_HATCHING }) := by
  simp [GfxCtx.disable_hatching, h]

theorem unfork_hatching (g : GfxCtx) : (GfxCtx.unfork g).hatching = g.hatching := rfl

theorem runHatchCalls_append (g : GfxCtx) (l1 l2 : List Bool) :
    runHatchCalls g (l1 ++ l2)
      = (runHatchCalls g l1).bind (fun g2 => runHatchCalls g2 l2) := by
  induction l1 generalizing g with
  | nil => simp [runHatchCalls]
  | cons b rest ih =>
      cases h : (if b then g.enable_hatching else g.disable_hatching) with
      | none => simp [runHatchCalls, h]
      | some g2 => simp [runHatchCalls, h, ih g2]

theorem altHatch_runs (n : ℕ) : ∀ g : GfxCtx, g.hatching = NO_HATCHING →
    ∃ g2, runHatchCalls g (altHatchList n) = some g2 ∧
      g2.hatching = (if n % 2 = 0 then NO_HATCHING else HATCHING) := by
  induction n with
  | zero =>
      intro g h
      exact ⟨g, by simp [altHatchList, runHatchCalls], by simpa using h⟩
  | succ n ih =>
      intro g h
      obtain ⟨g2, hrun, hflag⟩ := ih g h
      have hsplit : altHatchList (n + 1)
          = altHatchList n ++ [decide (n % 2 = 0)] := by
        simp [altHatchList, List.range_succ]
      rw [hsplit, runHatchCalls_append, hrun]
      by_cases hp : n % 2 = 0
      · have h2 : g2.hatching = NO_HATCHING := by simp [hflag, hp]
        have hn1 : ¬((n + 1) % 2 = 0) := by omega
        refine ⟨GfxCtx.unfork { g2 with hatching := HATCHING }, ?_, ?_⟩
        · simp [hp, runHatchCalls, enable_hatching_of_disabled g2 h2]
        · simp [hn1, unfork_hatching]
      · have h2 : g2.hatching = HATCHING := by simp [hflag, hp]
        have hn1 : (n + 1) % 2 = 0 := by omega
        refine ⟨GfxCtx.unfork { g2 with hatching := NO_HATCHING }, ?_, ?_⟩
        · simp [hp, runHatchCalls, disable_hatching_of_enabled g2 h2]
        · simp [hn1, unfork_hatching]

/-- Claim C6: enable_hatching fails fast (modelled as none) when
hatching is already enabled, and disable_hatching fails fast when it is
already disabled; from the legal state each call flips the hatching
flag and re-derives the Uniform Block from the Canvas with the new
discriminant; and a strictly alternating sequence of calls starting
from the disabled state never fires an assertion. -/
theorem hatching_state_machine (g : GfxCtx) :
    (g.hatching = HATCHING → g.enable_hatching = none) ∧
    (g.hatching = NO_HATCHING → g.disable_hatching = none) ∧
    (g.hatching = NO_HATCHING → ∃ g2, g.enable_hatching = some g2 ∧
      g2.hatching = HATCHING ∧
      g2.uniforms =
        ⟨⟨g.canvas.cam_x, g.canvas.cam_y, g.canvas.cam_zoom⟩,
         ⟨g.canvas.window_width, g.canvas.window_height, HATCHING⟩⟩) ∧
    (g.hatching = HATCHING → ∃ g2, g.disable_hatching = some g2 ∧
      g2.hatching = NO_HATCHING ∧
      g2.uniforms =
        ⟨⟨g.canvas.cam_x, g.canvas.cam_y, g.canvas.cam_zoom⟩,
         ⟨g.canvas.window_width, g.canvas.window_height, NO_HATCHING⟩⟩) ∧
    (∀ n, g.hatching = NO_HATCHING →
      (runHatchCalls g (altHatchList n)).isSome = true) := by
  refine ⟨?_, ?_, ?_, ?_, ?_⟩
  · intro h
    simp [GfxCtx.enable_hatching, h, HATCHING, NO_HATCHING]
  · intro h
    simp [GfxCtx.disable_hatching, h, HATCHING, NO_HATCHING]
  · intro h
    exact ⟨GfxCtx.unfork { g with hatching := HATCHING },
      enable_hatching_of_disabled g h, rfl, rfl⟩
  · intro h
    exact ⟨GfxCtx.unfork { g with hatching := NO_HATCHING },
      disable_hatching_of_enabled g h, rfl, rfl⟩
  · intro n h
    obtain ⟨g2, hrun, _⟩ := altHatch_runs n g h
    simp [hrun]

/-- Concrete instantiation of the C6 theorem: a double enable fails, a
double disable fails, and four strictly alternating calls from the
disabled state all succeed. -/
theorem hatching_state_machine_witness :
    hatchedCtx.hatching = HATCHING ∧
    hatchedCtx.enable_hatching = none ∧
    sampleCtx.hatching = NO_HATCHING ∧
    sampleCtx.disable_hatching = none ∧
    (runHatchCalls sampleCtx (altHatchList 4)).isSome = true :=
  ⟨by decide,
   (hatching_state_machine hatchedCtx).1 (by decide),
   by decide,
   (hatching_state_machine sampleCtx).2.1 (by decide),
   (hatching_state_machine sampleCtx).2.2.2.2 4 (by decide)⟩

/-- Claim C7: for a texture fill the encoder computes the bounding box
at most once per polygon; each vertex receives UV coordinates
((pt.x - min_x)/(max_x - min_x), (pt.y - min_y)/(max_y - min_y)); and
when the bounding box has positive width and height, every encoded
vertex whose position lies within the bounding box has both UV
components in [0, 1]. -/
theorem texture_uv_encoding (id : ℚ) (poly : Polygon) :
    (encodePoly (Color.Texture id) poly).2 ≤ 1 ∧
    (encodePoly (Color.Texture id) poly).1
      = poly.points.map (fun pt =>
          ⟨⟨pt.x, pt.y⟩,
           ⟨id, (pt.x - poly.bounds.min_x) / (poly.bounds.max_x - poly.bounds.min_x),
            (pt.y - poly.bounds.min_y) / (poly.bounds.max_y - poly.bounds.min_y),
            0⟩⟩) ∧
    (poly.bounds.min_x < poly.bounds.max_x →
     poly.bounds.min_y < poly.bounds.max_y →
     ∀ v ∈ (encodePoly (Color.Texture id) poly).1,
       poly.bounds.min_x ≤ v.position.x → v.position.x ≤ poly.bounds.max_x →
       poly.bounds.min_y ≤ v.position.y → v.position.y ≤ poly.bounds.max_y →
       0 ≤ v.style.s1 ∧ v.style.s1 ≤ 1 ∧ 0 ≤ v.style.s2 ∧ v.style.s2 ≤ 1) := by
  have hmap : (encodePoly (Color.Texture id) poly).1
      = poly.points.map (fun pt =>
          (⟨⟨pt.x, pt.y⟩,
           ⟨id, (pt.x - poly.bounds.min_x) / (poly.bounds.max_x - poly.bounds.min_x),
            (pt.y - poly.bounds.min_y) / (poly.bounds.max_y - poly.bounds.min_y),
            0⟩⟩ : Vertex)) := by
    rw [encodePoly_fst]
    rfl
  refine ⟨encodePoly_boundsCalls_le _ _, hmap, ?_⟩
  intro hx hy v hv h1 h2 h3 h4
  rw [hmap] at hv
  obtain ⟨pt, _, rfl⟩ := List.mem_map.1 hv
  have hwx : (0 : ℚ) < poly.bounds.max_x - poly.bounds.min_x := by linarith
  have hwy : (0 : ℚ) < poly.bounds.max_y - poly.bounds.min_y := by linarith
  refine ⟨div_nonneg (by simpa using sub_nonneg.2 h1) (le_of_lt hwx),
          (div_le_one hwx).2 (by simpa using sub_le_sub_right h2 poly.bounds.min_x),
          div_nonneg (by simpa using sub_nonneg.2 h3) (le_of_lt hwy),
          (div_le_one hwy).2 (by simpa using sub_le_sub_right h4 poly.bounds.min_y)⟩

/-- Concrete instantiation of the C7 theorem on the unit square with a
texture fill: the vertex at (1, 0) receives UV (1, 0), inside [0,1]. -/
theorem texture_uv_encoding_witness :
    squarePoly.bounds.min_x < squarePoly.bounds.max_x ∧
    squarePoly.bounds.min_y < squarePoly.bounds.max_y ∧
    (⟨⟨1, 0⟩, ⟨3, 1, 0, 0⟩⟩ : Vertex) ∈ (encodePoly (Color.Texture 3) squarePoly).1 ∧
    (0 ≤ (⟨⟨1, 0⟩, ⟨3, 1, 0, 0⟩⟩ : Vertex).style.s1 ∧
     (⟨⟨1, 0⟩, ⟨3, 1, 0, 0⟩⟩ : Vertex).style.s1 ≤ 1 ∧
     0 ≤ (⟨⟨1, 0⟩, ⟨3, 1, 0, 0⟩⟩ : Vertex).style.s2 ∧
     (⟨⟨1, 0⟩, ⟨3, 1, 0, 0⟩⟩ : Vertex).style.s2 ≤ 1) := by
  have hmem : (⟨⟨1, 0⟩, ⟨3, 1, 0, 0⟩⟩ : Vertex)
      ∈ (encodePoly (Color.Texture 3) squarePoly).1 := by
    rw [encodePoly_fst]
    refine List.mem_map.2 ⟨⟨1, 0⟩, by simp [squarePoly], ?_⟩
    norm_num [vertexOf, squarePoly]
  exact ⟨by decide, by decide, hmem,
    (texture_uv_encoding 3 squarePoly).2.2 (by decide) (by decide)
      ⟨⟨1, 0⟩, ⟨3, 1, 0, 0⟩⟩ hmem
      (by decide) (by decide) (by decide) (by decide)⟩

/-- Claim C8: redraw increments the per-frame draw-call counter by
exactly one, a successful clear leaves it unchanged, and a frame that
clears to opaque white and then draws one solid-black polygon reports
exactly 1 draw call. -/
theorem draw_call_counter (g : GfxCtx) (obj : Drawable) (color : Color)
    (canvas : Canvas) (pr : PrerenderState) (poly : Polygon) :
    ((g.redraw obj).num_draw_calls = g.num_draw_calls + 1) ∧
    (∀ g2, g.clear color = some g2 → g2.num_draw_calls = g.num_draw_calls) ∧
    (((GfxCtx.new canvas pr false).clear (Color.RGBA 1 1 1 1)).map
        (fun g1 => (g1.draw_polygon (Color.RGBA 0 0 0 1) poly).num_draw_calls)
      = some 1) := by
  refine ⟨rfl, ?_, ?_⟩
  · intro g2 h
    cases color with
    | RGBA r gr b a =>
        simp only [GfxCtx.clear, Option.some.injEq] at h
        rw [← h]
    | Texture tid => simp [GfxCtx.clear] at h
  · simp [GfxCtx.clear, GfxCtx.new, GfxCtx.draw_polygon, GfxCtx.redraw]

/-- Concrete instantiation of the C8 theorem: a clear on the sample
context leaves its zero draw-call counter at zero. -/
theorem draw_call_counter_witness :
    sampleCtx.clear (Color.RGBA 1 1 1 1)
      = some { sampleCtx with target_clears := [(1, 1, 1, 1)] } ∧
    ({ sampleCtx with target_clears := [(1, 1, 1, 1)] } : GfxCtx).num_draw_calls
      = sampleCtx.num_draw_calls :=
  ⟨by decide,
   (draw_call_counter sampleCtx sampleDrawable (Color.RGBA 1 1 1 1)
       sampleCanvas samplePrerender samplePoly).2.1
     { sampleCtx with target_clears := [(1, 1, 1, 1)] } (by decide)⟩

/-- Claim C9: fork, fork_screenspace and unfork mutate only the Uniform
Block of the context: the Canvas, the hatching flag, the draw-call
counter, the uploader counters, the screencap state and the framebuffer
effect lists (draws, clears) and covered areas are all unchanged, so in
particular no draw call is issued. -/
theorem fork_mutates_only_uniforms (g : GfxCtx) (p : Pt2D) (s : ScreenPt) (z : ℚ) :
    ((g.fork p s z).canvas = g.canvas ∧
     (g.fork p s z).prerender = g.prerender ∧
     (g.fork p s z).num_draw_calls = g.num_draw_calls ∧
     (g.fork p s z).hatching = g.hatching ∧
     (g.fork p s z).screencap_mode = g.screencap_mode ∧
     (g.fork p s z).naming_hint = g.naming_hint ∧
     (g.fork p s z).target_draws = g.target_draws ∧
     (g.fork p s z).target_clears = g.target_clears ∧
     (g.fork p s z).covered_areas = g.covered_areas) ∧
    (g.fork_screenspace.canvas = g.canvas ∧
     g.fork_screenspace.prerender = g.prerender ∧
     g.fork_screenspace.num_draw_calls = g.num_draw_calls ∧
     g.fork_screenspace.hatching = g.hatching ∧
     g.fork_screenspace.screencap_mode = g.screencap_mode ∧
     g.fork_screenspace.naming_hint = g.naming_hint ∧
     g.fork_screenspace.target_draws = g.target_draws ∧
     g.fork_screenspace.target_clears = g.target_clears ∧
     g.fork_screenspace.covered_areas = g.covered_areas) ∧
    (g.unfork.canvas = g.canvas ∧
     g.unfork.prerender = g.prerender ∧
     g.unfork.num_draw_calls = g.num_draw_calls ∧
     g.unfork.hatching = g.hatching ∧
     g.unfork.screencap_mode = g.screencap_mode ∧
     g.unfork.naming_hint = g.naming_hint ∧
     g.unfork.target_draws = g.target_draws ∧
     g.unfork.target_clears = g.target_clears ∧
     g.unfork.covered_areas = g.covered_areas) :=
  ⟨⟨rfl, rfl, rfl, rfl, rfl, rfl, rfl, rfl, rfl⟩,
   ⟨rfl, rfl, rfl, rfl, rfl, rfl, rfl, rfl, rfl⟩,
   ⟨rfl, rfl, rfl, rfl, rfl, rfl, rfl, rfl, rfl⟩⟩

/-- Claim C10: draw_blocking_text on an empty Text returns immediately
for every alignment pair and every behavior of the external text
collaborators: the context (Uniform Block, draw-call counter, covered
areas, framebuffer effects) is returned unchanged. -/
theorem draw_blocking_text_empty
    (text_dims : Text → ℚ × ℚ)
    (draw_text_bubble : GfxCtx → ScreenPt → Text → ℚ × ℚ → GfxCtx × ScreenRectangle)
    (g : GfxCtx) (txt : Text)
    (horiz : HorizontalAlignment) (vert : VerticalAlignment)
    (h : txt.is_empty = true) :
    GfxCtx.draw_blocking_text text_dims draw_text_bubble g txt horiz vert = g := by
  simp [GfxCtx.draw_blocking_text, h]

/-- Concrete instantiation of the C10 theorem with trivial collaborators. -/
theorem draw_blocking_text_empty_witness :
    (Text.mk true).is_empty = true ∧
    GfxCtx.draw_blocking_text (fun _ => (0, 0))
      (fun g2 _ _ _ => (g2, ⟨0, 0, 0, 0⟩)) sampleCtx (Text.mk true)
      HorizontalAlignment.Left VerticalAlignment.Top = sampleCtx :=
  ⟨rfl,
   draw_blocking_text_empty (fun _ => (0, 0))
     (fun g2 _ _ _ => (g2, ⟨0, 0, 0, 0⟩)) sampleCtx (Text.mk true)
     HorizontalAlignment.Left VerticalAlignment.Top rfl⟩

end AbstreetDrawing
